import Mathlib

/-!
Verification of the image-analyzer relay (`server.js`) and its browser
client (`script.js`, reproduced in `PYTHON_GUIDE.md`).

The server-side `/analyze` handler is embedded as a pure function over an
explicit request, credential, upstream outcome and clock string; the
client's error display and description formatter are embedded over
`List Char`, with JavaScript string operations (`includes`, `split`,
`trim`, the regex replaces actually used) translated to executable
definitions.
-/

/-- Substring test used to embed JavaScript `String.prototype.includes`:
`leadMatch pat l` holds when `pat` is an initial segment of `l`. -/
def leadMatch : List Char → List Char → Bool
  | [], _ => true
  | _ :: _, [] => false
  | a :: as, b :: bs => a == b && leadMatch as bs

/-- `charsContains pat l` holds when `pat` occurs as a contiguous
substring of `l` (the semantics of JavaScript `l.includes(pat)`). -/
def charsContains (pat : List Char) : List Char → Bool
  | [] => leadMatch pat []
  | h :: t => leadMatch pat (h :: t) || charsContains pat t

/-- JavaScript `s.includes(pat)` on strings. -/
def strIncludes (s pat : String) : Bool :=
  charsContains pat.data s.data

/-- JavaScript falsiness of an optional string: `undefined`/absent and the
empty string are falsy. -/
def jsFalsy : Option String → Bool
  | none => true
  | some s => decide (s = "")

/-- JavaScript `v || dflt` on an optional string value. -/
def jsStrOr : Option String → String → String
  | none, d => d
  | some s, d => if s = "" then d else s

/-- Placeholder credential sentinel from `server.js` line 50. -/
def placeholderKey : String := "your_gemini_api_key_here"

/-- Validation error message, `server.js` line 46. -/
def noImageMessage : String := "No image provided"

/-- Configuration error message, `server.js` line 52. -/
def notConfiguredMessage : String :=
  "GEMINI_API_KEY not configured. Please add your API key to the .env file"

/-- Auth error message, `server.js` line 101. -/
def authMessage : String :=
  "Invalid API key. Please check your GEMINI_API_KEY in the .env file"

/-- Quota error message, `server.js` line 103. -/
def quotaMessage : String :=
  "API quota exceeded. Please check your Gemini API usage limits"

/-- Safety error message, `server.js` line 105. -/
def safetyMessage : String :=
  "Image content was flagged by safety filters"

/-- Generic upstream failure message, `server.js` line 98. -/
def genericFailureMessage : String := "Failed to analyze image"

/-- Error classifier of the `/analyze` catch block (`server.js`
lines 98-106): first substring match wins, in the order
`"API key"`, `"quota"`, `"SAFETY"`, otherwise generic. -/
def classifyErrorMessage (msg : String) : String :=
  if strIncludes msg "API key" then authMessage
  else if strIncludes msg "quota" then quotaMessage
  else if strIncludes msg "SAFETY" then safetyMessage
  else genericFailureMessage

/-- Body of a POST `/analyze` request: `{image, mimeType}`, each possibly
absent. -/
structure AnalyzeRequest where
  image : Option String
  mimeType : Option String
deriving DecidableEq, Repr

/-- Outcome of the single upstream Gemini call: generated text, or a
thrown error carrying a message. -/
inductive UpstreamResult where
  | ok (text : String)
  | fail (message : String)
deriving DecidableEq, Repr

/-- Arguments the handler passes to the upstream model
(`server.js` lines 62-69): the inline image data and the effective MIME
type (defaulted to `image/jpeg` when absent or empty). -/
structure UpstreamCall where
  image : String
  mimeType : String
deriving DecidableEq, Repr

/-- JSON response of the `/analyze` handler, with its HTTP status; absent
JSON fields are `none`. -/
structure AnalyzeResponse where
  status : Nat
  success : Option Bool
  description : Option String
  timestamp : Option String
  error : Option String
  details : Option String
deriving DecidableEq, Repr

/-- The POST `/analyze` handler (`server.js` lines 40-113) as a pure
function of the configured credential, the request body, the upstream
outcome, and the clock string `new Date().toISOString()`.  The second
component records the upstream invocation (`none` when the external
model is never contacted). -/
def analyzeHandler (apiKey : Option String) (req : AnalyzeRequest)
    (upstream : UpstreamResult) (nowIso : String) :
    AnalyzeResponse × Option UpstreamCall :=
  if jsFalsy req.image then
    ({ status := 400, success := none, description := none, timestamp := none,
       error := some noImageMessage, details := none }, none)
  else if jsFalsy apiKey || apiKey == some placeholderKey then
    ({ status := 500, success := none, description := none, timestamp := none,
       error := some notConfiguredMessage, details := none }, none)
  else
    match upstream with
    | .ok text =>
      ({ status := 200, success := some true, description := some text,
         timestamp := some nowIso, error := none, details := none },
       some { image := jsStrOr req.image "", mimeType := jsStrOr req.mimeType "image/jpeg" })
    | .fail msg =>
      ({ status := 500, success := none, description := none, timestamp := none,
         error := some (classifyErrorMessage msg), details := some msg },
       some { image := jsStrOr req.image "", mimeType := jsStrOr req.mimeType "image/jpeg" })

/-- Modelled from the spec: the ISO-8601 date-time shape
`YYYY-MM-DDTHH:MM:SS.mmmZ` produced by the (out-of-scope) environment
clock `new Date().toISOString()`. -/
def iso8601Shape : List Char → Bool
  | [y1, y2, y3, y4, h1, m1, m2, h2, d1, d2, t, hh1, hh2, c1, mi1, mi2, c2,
     s1, s2, dot, ms1, ms2, ms3, z] =>
    y1.isDigit && y2.isDigit && y3.isDigit && y4.isDigit && h1 == '-' &&
    m1.isDigit && m2.isDigit && h2 == '-' && d1.isDigit && d2.isDigit &&
    t == 'T' && hh1.isDigit && hh2.isDigit && c1 == ':' && mi1.isDigit &&
    mi2.isDigit && c2 == ':' && s1.isDigit && s2.isDigit && dot == '.' &&
    ms1.isDigit && ms2.isDigit && ms3.isDigit && z == 'Z'
  | _ => false

/-- Modelled from the spec: ISO-8601 check on strings. -/
def isISO8601 (s : String) : Bool := iso8601Shape s.data

/-- C1: when the upstream failure message contains `"API key"` the
classifier yields the auth message regardless of other substrings; the
remaining branches fire first-match in the order quota, SAFETY, generic;
and exactly one of the four classifications is produced. -/
theorem claim1_api_key_first_match (msg : String) :
    (strIncludes msg "API key" = true → classifyErrorMessage msg = authMessage)
    ∧ (strIncludes msg "API key" = false → strIncludes msg "quota" = true →
        classifyErrorMessage msg = quotaMessage)
    ∧ (strIncludes msg "API key" = false → strIncludes msg "quota" = false →
        strIncludes msg "SAFETY" = true → classifyErrorMessage msg = safetyMessage)
    ∧ (strIncludes msg "API key" = false → strIncludes msg "quota" = false →
        strIncludes msg "SAFETY" = false →
        classifyErrorMessage msg = genericFailureMessage)
    ∧ (classifyErrorMessage msg = authMessage ∨
       classifyErrorMessage msg = quotaMessage ∨
       classifyErrorMessage msg = safetyMessage ∨
       classifyErrorMessage msg = genericFailureMessage) := by
  refine ⟨?_, ?_, ?_, ?_, ?_⟩
  · intro h1
    simp [classifyErrorMessage, h1]
  · intro h1 h2
    simp [classifyErrorMessage, h1, h2]
  · intro h1 h2 h3
    simp [classifyErrorMessage, h1, h2, h3]
  · intro h1 h2 h3
    simp [classifyErrorMessage, h1, h2, h3]
  · unfold classifyErrorMessage
    split
    · exact Or.inl rfl
    · split
      · exact Or.inr (Or.inl rfl)
      · split
        · exact Or.inr (Or.inr (Or.inl rfl))
        · exact Or.inr (Or.inr (Or.inr rfl))

/-- C1 witness: a message containing all three classifier substrings is
classified as the auth error. -/
theorem claim1_witness :
    strIncludes "bad API key, quota hit, SAFETY block" "API key" = true ∧
    classifyErrorMessage "bad API key, quota hit, SAFETY block" = authMessage :=
  ⟨by decide, (claim1_api_key_first_match "bad API key, quota hit, SAFETY block").1 (by decide)⟩

/-- Message the specification prescribes for the auth classification; the
code's wording (`authMessage`) differs. -/
def specAuthMessage : String :=
  "Invalid API key. Please check your API key configuration"

/-- Message the specification prescribes for the quota classification; the
code's wording (`quotaMessage`) differs. -/
def specQuotaMessage : String :=
  "API quota exceeded. Please check your API usage limits"

/-- C2 counterexample: for the upstream failure message `"API key"` the
handler's response body carries the code's auth wording, which is not the
string the claim prescribes. -/
theorem claim2_counterexample :
    (analyzeHandler (some "k") ⟨some "img", none⟩ (.fail "API key") "t").1.error
      = some authMessage ∧ authMessage ≠ specAuthMessage := by
  constructor <;> decide

/-- C2 amended: every upstream failure yields HTTP 500 with `error` equal
to the code's classified wording — auth and quota messages mention
`GEMINI_API_KEY` / Gemini usage limits rather than the spec's phrasing —
and `details` equal to the raw upstream message. -/
theorem claim2_classified_error_response (key : Option String)
    (req : AnalyzeRequest) (msg nowIso : String)
    (himg : jsFalsy req.image = false)
    (hkey : (jsFalsy key || key == some placeholderKey) = false) :
    (analyzeHandler key req (.fail msg) nowIso).1.status = 500
    ∧ (analyzeHandler key req (.fail msg) nowIso).1.details = some msg
    ∧ (strIncludes msg "API key" = true →
        (analyzeHandler key req (.fail msg) nowIso).1.error =
          some "Invalid API key. Please check your GEMINI_API_KEY in the .env file")
    ∧ (strIncludes msg "API key" = false → strIncludes msg "quota" = true →
        (analyzeHandler key req (.fail msg) nowIso).1.error =
          some "API quota exceeded. Please check your Gemini API usage limits")
    ∧ (strIncludes msg "API key" = false → strIncludes msg "quota" = false →
        strIncludes msg "SAFETY" = true →
        (analyzeHandler key req (.fail msg) nowIso).1.error =
          some "Image content was flagged by safety filters")
    ∧ (strIncludes msg "API key" = false → strIncludes msg "quota" = false →
        strIncludes msg "SAFETY" = false →
        (analyzeHandler key req (.fail msg) nowIso).1.error =
          some "Failed to analyze image") := by
  refine ⟨?_, ?_, ?_, ?_, ?_, ?_⟩
  · simp [analyzeHandler, himg, hkey]
  · simp [analyzeHandler, himg, hkey]
  · intro h1
    simp [analyzeHandler, himg, hkey, classifyErrorMessage, h1, authMessage]
  · intro h1 h2
    simp [analyzeHandler, himg, hkey, classifyErrorMessage, h1, h2, quotaMessage]
  · intro h1 h2 h3
    simp [analyzeHandler, himg, hkey, classifyErrorMessage, h1, h2, h3, safetyMessage]
  · intro h1 h2 h3
    simp [analyzeHandler, himg, hkey, classifyErrorMessage, h1, h2, h3,
      genericFailureMessage]

/-- C2 witness: instantiation of the amended statement at a quota
failure. -/
theorem claim2_witness :
    jsFalsy ((⟨some "img", none⟩ : AnalyzeRequest)).image = false ∧
    (jsFalsy (some "k") || some "k" == some placeholderKey) = false ∧
    strIncludes "quota exceeded" "API key" = false ∧
    strIncludes "quota exceeded" "quota" = true ∧
    (analyzeHandler (some "k") ⟨some "img", none⟩ (.fail "quota exceeded") "t").1.status = 500 ∧
    (analyzeHandler (some "k") ⟨some "img", none⟩ (.fail "quota exceeded") "t").1.details
      = some "quota exceeded" ∧
    (analyzeHandler (some "k") ⟨some "img", none⟩ (.fail "quota exceeded") "t").1.error
      = some "API quota exceeded. Please check your Gemini API usage limits" :=
  ⟨by decide, by decide, by decide, by decide,
    (claim2_classified_error_response (some "k") ⟨some "img", none⟩
      "quota exceeded" "t" (by decide) (by decide)).1,
    (claim2_classified_error_response (some "k") ⟨some "img", none⟩
      "quota exceeded" "t" (by decide) (by decide)).2.1,
    (claim2_classified_error_response (some "k") ⟨some "img", none⟩
      "quota exceeded" "t" (by decide) (by decide)).2.2.2.1 (by decide) (by decide)⟩

/-- C3 counterexample: the validation failure response (missing image) is
an error response whose body carries no `details` field. -/
theorem claim3_counterexample :
    ¬ (∀ (key : Option String) (req : AnalyzeRequest) (up : UpstreamResult)
        (now : String), (analyzeHandler key req up now).1.status ≠ 200 →
        (analyzeHandler key req up now).1.details ≠ none) := by
  intro h
  exact h (some "k") ⟨none, none⟩ (.ok "d") "t" (by decide) (by decide)

/-- C3 amended: only the classified upstream-failure responses carry both
`error` and `details`; the validation and configuration error responses
carry only `error`, with no `details` field. -/
theorem claim3_details_only_upstream (key : Option String)
    (req : AnalyzeRequest) (up : UpstreamResult) (now : String) :
    (jsFalsy req.image = true →
      (analyzeHandler key req up now).1.error = some noImageMessage ∧
      (analyzeHandler key req up now).1.details = none)
    ∧ (jsFalsy req.image = false →
        (jsFalsy key || key == some placeholderKey) = true →
        (analyzeHandler key req up now).1.error = some notConfiguredMessage ∧
        (analyzeHandler key req up now).1.details = none)
    ∧ (∀ msg, up = .fail msg → jsFalsy req.image = false →
        (jsFalsy key || key == some placeholderKey) = false →
        (analyzeHandler key req up now).1.error = some (classifyErrorMessage msg) ∧
        (analyzeHandler key req up now).1.details = some msg) := by
  refine ⟨?_, ?_, ?_⟩
  · intro h
    simp [analyzeHandler, h]
  · intro h1 h2
    simp [analyzeHandler, h1, h2]
  · intro msg hup h1 h2
    subst hup
    simp [analyzeHandler, h1, h2]

/-- C3 witness: instantiation of the amended statement at a missing-image
request. -/
theorem claim3_witness :
    jsFalsy ((⟨none, none⟩ : AnalyzeRequest)).image = true ∧
    ((analyzeHandler (some "k") ⟨none, none⟩ (.ok "d") "t").1.error = some noImageMessage ∧
     (analyzeHandler (some "k") ⟨none, none⟩ (.ok "d") "t").1.details = none) :=
  ⟨by decide,
    (claim3_details_only_upstream (some "k") ⟨none, none⟩ (.ok "d") "t").1 (by decide)⟩

/-- C4: with a non-empty image and an absent or placeholder credential the
handler answers HTTP 500 with the configuration error and never invokes
the upstream model. -/
theorem claim4_config_no_upstream_call (key : Option String)
    (req : AnalyzeRequest) (up : UpstreamResult) (now : String)
    (himg : jsFalsy req.image = false)
    (hkey : key = none ∨ key = some placeholderKey) :
    (analyzeHandler key req up now).1.status = 500
    ∧ (analyzeHandler key req up now).1.error = some notConfiguredMessage
    ∧ (analyzeHandler key req up now).2 = none := by
  have hc : (jsFalsy key || key == some placeholderKey) = true := by
    rcases hkey with h | h <;> subst h <;> decide
  simp [analyzeHandler, himg, hc]

/-- C4 witness: instantiation at a concrete request with the placeholder
credential. -/
theorem claim4_witness :
    jsFalsy ((⟨some "img", none⟩ : AnalyzeRequest)).image = false ∧
    (some placeholderKey = none ∨ some placeholderKey = some placeholderKey) ∧
    ((analyzeHandler (some placeholderKey) ⟨some "img", none⟩ (.ok "d") "t").1.status = 500
      ∧ (analyzeHandler (some placeholderKey) ⟨some "img", none⟩ (.ok "d") "t").1.error
          = some notConfiguredMessage
      ∧ (analyzeHandler (some placeholderKey) ⟨some "img", none⟩ (.ok "d") "t").2 = none) :=
  ⟨by decide, Or.inr rfl,
    claim4_config_no_upstream_call (some placeholderKey) ⟨some "img", none⟩
      (.ok "d") "t" (by decide) (Or.inr rfl)⟩

/-- C5: a missing or empty `image` field yields HTTP 400 with message
`No image provided`, and the upstream model is never invoked. -/
theorem claim5_missing_image_400 (key : Option String)
    (req : AnalyzeRequest) (up : UpstreamResult) (now : String)
    (himg : jsFalsy req.image = true) :
    (analyzeHandler key req up now).1.status = 400
    ∧ (analyzeHandler key req up now).1.error = some noImageMessage
    ∧ (analyzeHandler key req up now).2 = none := by
  simp [analyzeHandler, himg]

/-- C5 witness: instantiation at an empty-string image. -/
theorem claim5_witness :
    jsFalsy ((⟨some "", none⟩ : AnalyzeRequest)).image = true ∧
    ((analyzeHandler (some "k") ⟨some "", none⟩ (.ok "d") "t").1.status = 400
      ∧ (analyzeHandler (some "k") ⟨some "", none⟩ (.ok "d") "t").1.error
          = some noImageMessage
      ∧ (analyzeHandler (some "k") ⟨some "", none⟩ (.ok "d") "t").2 = none) :=
  ⟨by decide,
    claim5_missing_image_400 (some "k") ⟨some "", none⟩ (.ok "d") "t" (by decide)⟩

/-- C6: when validation passes, the credential is configured, and the
upstream call succeeds with text `t`, the handler answers HTTP 200 with
body `{success: true, description: t, timestamp: s}` and nothing else,
where `s` is the ISO-8601 clock string. -/
theorem claim6_success_response (key : Option String)
    (req : AnalyzeRequest) (t nowIso : String)
    (himg : jsFalsy req.image = false)
    (hkey : (jsFalsy key || key == some placeholderKey) = false)
    (hiso : isISO8601 nowIso = true) :
    (analyzeHandler key req (.ok t) nowIso).1 =
      { status := 200, success := some true, description := some t,
        timestamp := some nowIso, error := none, details := none }
    ∧ ∃ s, (analyzeHandler key req (.ok t) nowIso).1.timestamp = some s ∧
        isISO8601 s = true := by
  refine ⟨by simp [analyzeHandler, himg, hkey], ⟨nowIso, ?_, hiso⟩⟩
  simp [analyzeHandler, himg, hkey]

/-- C6 witness: instantiation at a concrete successful analysis. -/
theorem claim6_witness :
    jsFalsy ((⟨some "img", some "image/png"⟩ : AnalyzeRequest)).image = false ∧
    (jsFalsy (some "k") || some "k" == some placeholderKey) = false ∧
    isISO8601 "2026-10-11T00:00:00.000Z" = true ∧
    ((analyzeHandler (some "k") ⟨some "img", some "image/png"⟩ (.ok "a cat")
        "2026-10-11T00:00:00.000Z").1 =
      { status := 200, success := some true, description := some "a cat",
        timestamp := some "2026-10-11T00:00:00.000Z", error := none, details := none }
      ∧ ∃ s, (analyzeHandler (some "k") ⟨some "img", some "image/png"⟩ (.ok "a cat")
          "2026-10-11T00:00:00.000Z").1.timestamp = some s ∧ isISO8601 s = true) :=
  ⟨by decide, by decide, by decide,
    claim6_success_response (some "k") ⟨some "img", some "image/png"⟩ "a cat"
      "2026-10-11T00:00:00.000Z" (by decide) (by decide) (by decide)⟩

/-- C10: the image-presence check precedes the credential check: a missing
or empty image yields HTTP 400 `No image provided` even when the
credential is absent or the placeholder, never the configuration error. -/
theorem claim10_image_check_first (key : Option String)
    (req : AnalyzeRequest) (up : UpstreamResult) (now : String)
    (himg : jsFalsy req.image = true)
    (hkey : key = none ∨ key = some placeholderKey) :
    (analyzeHandler key req up now).1.status = 400
    ∧ (analyzeHandler key req up now).1.error = some noImageMessage
    ∧ (analyzeHandler key req up now).1.error ≠ some notConfiguredMessage := by
  refine ⟨by simp [analyzeHandler, himg], by simp [analyzeHandler, himg], ?_⟩
  simp [analyzeHandler, himg]
  decide

/-- C10 witness: instantiation at a missing image with an absent
credential. -/
theorem claim10_witness :
    jsFalsy ((⟨none, none⟩ : AnalyzeRequest)).image = true ∧
    ((none : Option String) = none ∨ (none : Option String) = some placeholderKey) ∧
    ((analyzeHandler none ⟨none, none⟩ (.ok "d") "t").1.status = 400
      ∧ (analyzeHandler none ⟨none, none⟩ (.ok "d") "t").1.error = some noImageMessage
      ∧ (analyzeHandler none ⟨none, none⟩ (.ok "d") "t").1.error ≠ some notConfiguredMessage) :=
  ⟨by decide, Or.inl rfl,
    claim10_image_check_first none ⟨none, none⟩ (.ok "d") "t" (by decide) (Or.inl rfl)⟩

/-- Outcome of the client's `fetch` to `/analyze` (`script.js`
`analyzeImage`): an HTTP response with its `ok` flag and the `error` and
`detail` fields of the parsed JSON body, or a thrown network exception
with its message. -/
inductive FetchOutcome where
  | response (ok : Bool) (errorField : Option String) (detailField : Option String)
  | netError (message : String)
deriving DecidableEq, Repr

/-- Fallback thrown by the client when the body has no truthy `detail`
field (`script.js` `analyzeImage`). -/
def fallbackShort : String := "Failed to analyze image"

/-- Fallback shown when the caught exception has no truthy message
(`script.js` `analyzeImage`). -/
def fallbackLong : String :=
  "Failed to analyze the image. Please make sure the server is running and try again."

/-- The message the server placed in the body, for the server bundled in
this repository: the `error` field of the `/analyze` error response. -/
def serverMessage : FetchOutcome → Option String
  | .response _ errorField _ => errorField
  | .netError _ => none

/-- Whether the analyze call failed (non-2xx response or network
exception). -/
def analyzeFailed : FetchOutcome → Bool
  | .response ok _ _ => !ok
  | .netError _ => true

/-- Message displayed by the client's `Error` view, `none` when the call
succeeded: a non-ok response throws `errorData.detail || fallbackShort`,
and the catch block shows `error.message || fallbackLong` (`script.js`
`analyzeImage` and `showError`). -/
def shownError : FetchOutcome → Option String
  | .response true _ _ => none
  | .response false _ detailField =>
    some (jsStrOr (some (jsStrOr detailField fallbackShort)) fallbackLong)
  | .netError m => some (jsStrOr (some m) fallbackLong)

/-- C8 counterexample: a non-2xx response whose body carries the server's
message under `error` — exactly what the bundled `server.js` sends — is
displayed as the generic fallback, not as the server-provided message,
although that message is present. -/
theorem claim8_counterexample :
    ¬ (∀ o : FetchOutcome, analyzeFailed o = true →
        (∃ m, serverMessage o = some m ∧ shownError o = some m) ∨
        (serverMessage o = none ∧ shownError o = some fallbackShort)) := by
  intro h
  rcases h (.response false (some "No image provided") none) (by decide) with
    ⟨m, hm, hs⟩ | ⟨hm, _⟩
  · simp only [serverMessage, Option.some.injEq] at hm
    subst hm
    exact absurd hs (by decide)
  · simp [serverMessage] at hm

/-- C8 amended: the client consults only the body's `detail` field: a
non-2xx response displays `detail` when present and non-empty and the
fallback `Failed to analyze image` otherwise (in particular whenever the
server's message is under `error`, as the bundled server sends it); a
network exception displays the exception's own message when non-empty,
and a longer fallback otherwise. -/
theorem claim8_client_error_display :
    (∀ e d, d ≠ "" →
      shownError (.response false e (some d)) = some d)
    ∧ (∀ e, shownError (.response false e none) = some fallbackShort)
    ∧ (∀ e, shownError (.response false e (some "")) = some fallbackShort)
    ∧ (∀ m, m ≠ "" → shownError (.netError m) = some m)
    ∧ shownError (.netError "") = some fallbackLong := by
  refine ⟨?_, ?_, ?_, ?_, ?_⟩
  · intro e d hd
    simp [shownError, jsStrOr, hd, fallbackLong]
  · intro e
    simp [shownError, jsStrOr, fallbackShort, fallbackLong]
  · intro e
    simp [shownError, jsStrOr, fallbackShort, fallbackLong]
  · intro m hm
    simp [shownError, jsStrOr, hm]
  · simp [shownError, jsStrOr, fallbackLong]

/-- C8 witness: instantiation of the amended statement at a concrete
non-2xx response and a concrete network exception. -/
theorem claim8_witness :
    ("boom" ≠ "" ∧ shownError (.response false (some "err") (some "boom")) = some "boom")
    ∧ ("net down" ≠ "" ∧ shownError (.netError "net down") = some "net down") :=
  ⟨⟨by decide, claim8_client_error_display.1 (some "err") "boom" (by decide)⟩,
   ⟨by decide, claim8_client_error_display.2.2.2.1 "net down" (by decide)⟩⟩

/-- Modelled from the spec: the base64 alphabet used by the browser's
`FileReader.readAsDataURL` encoding (an out-of-scope collaborator whose
round-trip contract the spec states). -/
def b64chars : List Char :=
  "ABCDEFGHIJKLMNOPQRSTUVWXYZabcdefghijklmnopqrstuvwxyz0123456789+/".data

/-- Character at an index of a list, defaulting to `A`. -/
def nthChar : List Char → Nat → Char
  | [], _ => 'A'
  | c :: _, 0 => c
  | _ :: t, n + 1 => nthChar t n

/-- Value-to-character map of the base64 alphabet. -/
def v2c (n : Nat) : Char := nthChar b64chars n

/-- Index of a character in a list (length of the list when absent). -/
def idxOf (c : Char) : List Char → Nat
  | [] => 0
  | d :: t => if d = c then 0 else idxOf c t + 1

/-- Character-to-value map of the base64 alphabet. -/
def c2v (c : Char) : Nat := idxOf c b64chars

/-- Modelled from the spec: standard base64 encoding of a byte sequence,
three bytes to four characters with `=` padding — the encoding the
browser applies before `fileToBase64` strips the data-URL prefix. -/
def b64encode : List Nat → List Char
  | [] => []
  | [a] => [v2c (a / 4), v2c (a % 4 * 16), '=', '=']
  | [a, b] => [v2c (a / 4), v2c (a % 4 * 16 + b / 16), v2c (b % 16 * 4), '=']
  | a :: b :: c :: rest =>
    v2c (a / 4) :: v2c (a % 4 * 16 + b / 16) :: v2c (b % 16 * 4 + c / 64) ::
      v2c (c % 64) :: b64encode rest

/-- Modelled from the spec: standard base64 decoding, as performed by the
upstream side on the payload the server receives. -/
def b64decode : List Char → List Nat
  | c1 :: c2 :: c3 :: c4 :: rest =>
    if c3 = '=' then [c2v c1 * 4 + c2v c2 / 16]
    else if c4 = '=' then
      [c2v c1 * 4 + c2v c2 / 16, c2v c2 % 16 * 16 + c2v c3 / 4]
    else
      (c2v c1 * 4 + c2v c2 / 16) :: (c2v c2 % 16 * 16 + c2v c3 / 4) ::
        (c2v c3 % 4 * 64 + c2v c4) :: b64decode rest
  | _ => []

theorem nthChar_mem (l : List Char) (n : Nat) :
    nthChar l n = 'A' ∨ nthChar l n ∈ l := by
  induction l generalizing n with
  | nil => exact Or.inl rfl
  | cons c t ih =>
    cases n with
    | zero => exact Or.inr (List.mem_cons_self c t)
    | succ m =>
      rcases ih m with h | h
      · exact Or.inl h
      · exact Or.inr (List.mem_cons_of_mem c h)

theorem v2c_ne_eqChar (n : Nat) : v2c n ≠ '=' := by
  rcases nthChar_mem b64chars n with h | h
  · rw [v2c, h]
    decide
  · intro hc
    rw [v2c] at hc
    rw [hc] at h
    revert h
    decide

theorem v2c_ne_comma (n : Nat) : v2c n ≠ ',' := by
  rcases nthChar_mem b64chars n with h | h
  · rw [v2c, h]
    decide
  · intro hc
    rw [v2c] at hc
    rw [hc] at h
    revert h
    decide

theorem c2v_v2c : ∀ n < 64, c2v (v2c n) = n := by decide

/-- Round trip of the modelled base64 coder: decoding an encoded byte
sequence restores it exactly. -/
theorem b64_roundTrip : ∀ l : List Nat, (∀ b ∈ l, b < 256) →
    b64decode (b64encode l) = l := by
  intro l
  induction l using b64encode.induct with
  | case1 =>
    intro _
    rfl
  | case2 a =>
    intro h
    have ha : a < 256 := h a (by simp)
    have e1 : c2v (v2c (a / 4)) = a / 4 := c2v_v2c _ (by omega)
    have e2 : c2v (v2c (a % 4 * 16)) = a % 4 * 16 := c2v_v2c _ (by omega)
    simp [b64encode, b64decode, e1, e2]
    omega
  | case3 a b =>
    intro h
    have ha : a < 256 := h a (by simp)
    have hb : b < 256 := h b (by simp)
    have e1 : c2v (v2c (a / 4)) = a / 4 := c2v_v2c _ (by omega)
    have e2 : c2v (v2c (a % 4 * 16 + b / 16)) = a % 4 * 16 + b / 16 :=
      c2v_v2c _ (by omega)
    have e3 : c2v (v2c (b % 16 * 4)) = b % 16 * 4 := c2v_v2c _ (by omega)
    simp [b64encode, b64decode, v2c_ne_eqChar (b % 16 * 4), e1, e2, e3]
    omega
  | case4 a b c rest ih =>
    intro h
    have ha : a < 256 := h a (by simp)
    have hb : b < 256 := h b (by simp)
    have hc : c < 256 := h c (by simp)
    have e1 : c2v (v2c (a / 4)) = a / 4 := c2v_v2c _ (by omega)
    have e2 : c2v (v2c (a % 4 * 16 + b / 16)) = a % 4 * 16 + b / 16 :=
      c2v_v2c _ (by omega)
    have e3 : c2v (v2c (b % 16 * 4 + c / 64)) = b % 16 * 4 + c / 64 :=
      c2v_v2c _ (by omega)
    have e4 : c2v (v2c (c % 64)) = c % 64 := c2v_v2c _ (by omega)
    have hrest : b64decode (b64encode rest) = rest := by
      refine ih ?_
      intro x hx
      exact h x (by simp [hx])
    simp [b64encode, b64decode, v2c_ne_eqChar (b % 16 * 4 + c / 64),
      v2c_ne_eqChar (c % 64), e1, e2, e3, e4, hrest]
    omega

/-- JavaScript `str.split(sep)` on character lists (for a one-character
separator), as used by `fileToBase64` and `formatDescription`. -/
def splitOn (sep : Char) : List Char → List (List Char)
  | [] => [[]]
  | c :: t =>
    if c = sep then [] :: splitOn sep t
    else
      match splitOn sep t with
      | [] => [[c]]
      | s :: ss => (c :: s) :: ss

/-- The client's `fileToBase64` (`script.js`): from the data URL the
`FileReader` produced, `reader.result.split(',')[1]` — the segment
between the first and second comma. -/
def fileToBase64 (dataURL : List Char) : List Char :=
  (splitOn ',' dataURL).getD 1 []

/-- The data URL `data:<mime>;base64,<payload>` produced by
`FileReader.readAsDataURL`. -/
def mkDataURL (mime payload : List Char) : List Char :=
  "data:".data ++ (mime ++ (";base64".data ++ (',' :: payload)))

theorem splitOn_sepFree (sep : Char) (l : List Char)
    (h : ∀ c ∈ l, c ≠ sep) : splitOn sep l = [l] := by
  induction l with
  | nil => rfl
  | cons c t ih =>
    have hc : ¬ c = sep := h c (by simp)
    have ht : splitOn sep t = [t] := ih fun x hx => h x (by simp [hx])
    simp [splitOn, hc, ht]

theorem splitOn_lead (sep : Char) (l1 l2 : List Char)
    (h : ∀ c ∈ l1, c ≠ sep) :
    splitOn sep (l1 ++ sep :: l2) = l1 :: splitOn sep l2 := by
  induction l1 with
  | nil => simp [splitOn]
  | cons c t ih =>
    have hc : ¬ c = sep := h c (by simp)
    have ht := ih fun x hx => h x (by simp [hx])
    simp [splitOn, hc, ht]

theorem b64encode_comma_free : ∀ l : List Nat, ∀ c ∈ b64encode l, c ≠ ',' := by
  intro l
  induction l using b64encode.induct with
  | case1 =>
    intro c hc
    simp [b64encode] at hc
  | case2 a =>
    intro c hc
    simp only [b64encode, List.mem_cons, List.not_mem_nil, or_false] at hc
    rcases hc with h | h | h | h <;> subst h
    · exact v2c_ne_comma _
    · exact v2c_ne_comma _
    · decide
    · decide
  | case3 a b =>
    intro c hc
    simp only [b64encode, List.mem_cons, List.not_mem_nil, or_false] at hc
    rcases hc with h | h | h | h <;> subst h
    · exact v2c_ne_comma _
    · exact v2c_ne_comma _
    · exact v2c_ne_comma _
    · decide
  | case4 a b cc rest ih =>
    intro c hc
    simp only [b64encode, List.mem_cons] at hc
    rcases hc with h | h | h | h | h
    · subst h
      exact v2c_ne_comma _
    · subst h
      exact v2c_ne_comma _
    · subst h
      exact v2c_ne_comma _
    · subst h
      exact v2c_ne_comma _
    · exact ih c h

theorem fileToBase64_extracts (mime payload : List Char)
    (hm : ∀ c ∈ mime, c ≠ ',') (hp : ∀ c ∈ payload, c ≠ ',') :
    fileToBase64 (mkDataURL mime payload) = payload := by
  have hlead : ∀ c ∈ "data:".data ++ (mime ++ ";base64".data), c ≠ ',' := by
    intro c hc
    rcases List.mem_append.mp hc with h | h
    · exact (by decide : ∀ x ∈ "data:".data, x ≠ ',') c h
    · rcases List.mem_append.mp h with h2 | h2
      · exact hm c h2
      · exact (by decide : ∀ x ∈ ";base64".data, x ≠ ',') c h2
  have hurl : mkDataURL mime payload =
      ("data:".data ++ (mime ++ ";base64".data)) ++ ',' :: payload := by
    simp [mkDataURL]
  rw [fileToBase64, hurl, splitOn_lead ',' _ payload hlead,
    splitOn_sepFree ',' payload hp]
  rfl

/-- C7: with a comma-free MIME type, the client's `fileToBase64` applied
to the data URL of a base64-encoded byte sequence yields exactly the
base64 payload after the first comma, and decoding what the server
receives restores the original file bytes. -/
theorem claim7_roundtrip (mime : List Char) (bytes : List Nat)
    (hm : ∀ c ∈ mime, c ≠ ',') (hb : ∀ b ∈ bytes, b < 256) :
    fileToBase64 (mkDataURL mime (b64encode bytes)) = b64encode bytes
    ∧ b64decode (fileToBase64 (mkDataURL mime (b64encode bytes))) = bytes := by
  have h1 : fileToBase64 (mkDataURL mime (b64encode bytes)) = b64encode bytes :=
    fileToBase64_extracts mime (b64encode bytes) hm (b64encode_comma_free bytes)
  exact ⟨h1, by rw [h1]; exact b64_roundTrip bytes hb⟩

/-- C7 witness: instantiation at a two-byte file and the `image/png` MIME
type. -/
theorem claim7_witness :
    (∀ c ∈ "image/png".data, c ≠ ',') ∧ (∀ b ∈ [72, 105], b < 256) ∧
    (fileToBase64 (mkDataURL "image/png".data (b64encode [72, 105]))
        = b64encode [72, 105]
      ∧ b64decode (fileToBase64 (mkDataURL "image/png".data (b64encode [72, 105])))
        = [72, 105]) :=
  ⟨by decide, by decide,
    claim7_roundtrip "image/png".data [72, 105] (by decide) (by decide)⟩

/-- The ECMAScript whitespace set stripped by `trim` and matched by the
`\s` regex class: WhiteSpace (tab, VT, FF, space, NBSP, ZWNBSP and the
Unicode space separators) together with the line terminators. -/
def isWs (c : Char) : Bool :=
  c == ' ' || c == '\t' || c == '\n' || c == '\r' || c == '\x0B' || c == '\x0C' ||
  c == '\u00A0' || c == '\u1680' ||
  (decide (0x2000 ≤ c.toNat) && decide (c.toNat ≤ 0x200A)) ||
  c == '\u2028' || c == '\u2029' || c == '\u202F' || c == '\u205F' ||
  c == '\u3000' || c == '\uFEFF'

/-- The ECMAScript LineTerminator set, which the regex `.` does not
match: LF, CR, LINE SEPARATOR, PARAGRAPH SEPARATOR. -/
def isLineTerm (c : Char) : Bool :=
  c == '\n' || c == '\r' || c == '\u2028' || c == '\u2029'

/-- JavaScript `s.trim()`: strip whitespace from both ends. -/
def jsTrim (l : List Char) : List Char :=
  ((l.dropWhile isWs).reverse.dropWhile isWs).reverse

/-- Whether a list starts with the character `c`. -/
def headIs (l : List Char) (c : Char) : Bool :=
  match l with
  | [] => false
  | d :: _ => d == c

/-- Whether a list ends with an asterisk. -/
def endsStar : List Char → Bool
  | [] => false
  | [c] => c == '*'
  | _ :: b :: t => endsStar (b :: t)

/-- Whether a list contains the two-character substring `**` (the
semantics of `p.includes('**')` in `formatDescription`). -/
def hasMarker : List Char → Bool
  | a :: b :: t => if a = '*' ∧ b = '*' then true else hasMarker (b :: t)
  | _ => false

/-- Scan for the `**` closing a bold pair, as the lazy `(.*?)` of the
regex `/\*\*(.*?)\*\*/g` does: the dot does not match a line terminator,
so the scan fails (`none`) if one occurs before the next `**`; otherwise
it returns the characters before that `**` and the characters after it. -/
def findClose : List Char → Option (List Char × List Char)
  | a :: b :: t =>
    if a = '*' ∧ b = '*' then some ([], t)
    else if isLineTerm a then none
    else
      match findClose (b :: t) with
      | none => none
      | some (i, r) => some (a :: i, r)
  | _ => none

/-- Whether a list contains a `**…**` pair the regex can match: a `**`
occurrence closed by a later `**` with no line terminator between them.
A pair whose inner text crosses a line terminator does not count, since
the dot in the pattern cannot match there. -/
def hasBoldPair : List Char → Bool
  | a :: b :: t =>
    if a = '*' ∧ b = '*' then
      match findClose t with
      | some _ => true
      | none => hasBoldPair t
    else hasBoldPair (b :: t)
  | _ => false

theorem hasMarker_cons (a : Char) (l : List Char)
    (h : hasMarker (a :: l) = false) : hasMarker l = false := by
  cases l with
  | nil => rfl
  | cons b t =>
    rw [hasMarker] at h
    split at h
    · exact absurd h (by simp)
    · exact h

theorem findClose_spec : ∀ l i r, findClose l = some (i, r) →
    l = i ++ '*' :: '*' :: r ∧ hasMarker i = false ∧ endsStar i = false := by
  intro l
  induction l with
  | nil =>
    intro i r h
    exact Option.noConfusion h
  | cons a t ih =>
    intro i r h
    cases t with
    | nil => exact Option.noConfusion h
    | cons b t' =>
      by_cases hcond : a = '*' ∧ b = '*'
      · rw [findClose, if_pos hcond] at h
        obtain ⟨hi, hr⟩ := Prod.mk.injEq .. ▸ Option.some.injEq .. ▸ h
        subst hi
        subst hr
        refine ⟨?_, rfl, rfl⟩
        simp [hcond.1, hcond.2]
      · rw [findClose, if_neg hcond] at h
        by_cases hterm : isLineTerm a = true
        · rw [if_pos hterm] at h
          exact absurd h (by simp)
        · rw [if_neg hterm] at h
          cases hfc : findClose (b :: t') with
          | none =>
            rw [hfc] at h
            exact absurd h (by simp)
          | some p =>
            obtain ⟨i', r'⟩ := p
            rw [hfc] at h
            have hir : a :: i' = i ∧ r' = r := by
              constructor
              · exact congrArg Prod.fst (Option.some.inj h)
              · exact congrArg Prod.snd (Option.some.inj h)
            obtain ⟨hi, hr⟩ := hir
            subst hi
            subst hr
            obtain ⟨hstruct, hm, hes⟩ := ih i' r' hfc
            refine ⟨by rw [List.cons_append, ← hstruct], ?_, ?_⟩
            · cases i' with
              | nil => rfl
              | cons c i'' =>
                have hcb : c = b := by
                  have := congrArg (fun l => headIs l c) hstruct
                  simp [headIs] at this
                  exact this.symm
                subst hcb
                rw [hasMarker, if_neg hcond]
                exact hm
            · cases i' with
              | nil =>
                have hb : b = '*' := by
                  have := congrArg (fun l => headIs l '*') hstruct
                  simpa [headIs] using this
                rw [endsStar]
                by_cases ha : a = '*'
                · exact absurd ⟨ha, hb⟩ hcond
                · simp [ha]
              | cons c i'' =>
                rw [endsStar]
                exact hes

theorem findClose_length (l i r : List Char) (h : findClose l = some (i, r)) :
    l.length = i.length + 2 + r.length := by
  obtain ⟨hstruct, _, _⟩ := findClose_spec l i r h
  rw [hstruct]
  simp
  omega

/-- Opening markup substituted for a `**` pair by `formatDescription`. -/
def strongOpen : List Char :=
  "<strong style=\"color: var(--text-primary);\">".data

/-- Closing markup substituted for a `**` pair by `formatDescription`. -/
def strongClose : List Char := "</strong>".data

/-- The global lazy regex replacement
`p.replace(/\*\*(.*?)\*\*/g, '<strong ...>$1</strong>')` of
`formatDescription`: each leftmost matchable `**…**` pair, with minimal
inner text containing no line terminator, becomes a strong span; an
opening `**` with no such close is left verbatim and the scan continues
after it, as the regex engine advances past a failed match position. -/
def boldReplace : List Char → List Char
  | [] => []
  | [c] => [c]
  | a :: b :: t =>
    if a = '*' ∧ b = '*' then
      match hfc : findClose t with
      | some (inner, rest) =>
        strongOpen ++ (inner ++ (strongClose ++ boldReplace rest))
      | none => a :: b :: boldReplace t
    else a :: boldReplace (b :: t)
termination_by l => l.length
decreasing_by
  · have := findClose_length t inner rest hfc
    simp only [List.length_cons]
    omega
  · simp only [List.length_cons]
    omega
  · simp only [List.length_cons]
    omega

theorem marker_append (u v : List Char) (hu : hasMarker u = false)
    (hv : hasMarker v = false) (hb : (endsStar u && headIs v '*') = false) :
    hasMarker (u ++ v) = false := by
  induction u with
  | nil => simpa using hv
  | cons a u ih =>
    cases u with
    | nil =>
      cases v with
      | nil => rfl
      | cons d w =>
        simp only [List.singleton_append]
        rw [hasMarker]
        split
        · rename_i hcond
          rw [show endsStar [a] = (a == '*') from rfl, headIs] at hb
          simp [hcond.1, hcond.2] at hb
        · exact hv
    | cons b u' =>
      have htl : hasMarker (b :: u') = false := hasMarker_cons a _ hu
      have ihh := ih htl hb
      simp only [List.cons_append]
      rw [hasMarker]
      split
      · rename_i hcond
        rw [hasMarker, if_pos hcond] at hu
        exact absurd hu (by simp)
      · simpa using ihh

theorem boldPair_append (u v : List Char) (hu : hasMarker u = false)
    (hv : hasBoldPair v = false) (hb : (endsStar u && headIs v '*') = false) :
    hasBoldPair (u ++ v) = false := by
  induction u with
  | nil => simpa using hv
  | cons a u ih =>
    cases u with
    | nil =>
      cases v with
      | nil => rfl
      | cons d w =>
        simp only [List.singleton_append]
        rw [hasBoldPair]
        split
        · rename_i hcond
          rw [show endsStar [a] = (a == '*') from rfl, headIs] at hb
          simp [hcond.1, hcond.2] at hb
        · exact hv
    | cons b u' =>
      have htl : hasMarker (b :: u') = false := hasMarker_cons a _ hu
      have ihh := ih htl hb
      simp only [List.cons_append]
      rw [hasBoldPair]
      split
      · rename_i hcond
        rw [hasMarker, if_pos hcond] at hu
        exact absurd hu (by simp)
      · simpa using ihh

theorem bp_of_marker : ∀ l, hasMarker l = false → hasBoldPair l = false := by
  intro l
  induction l with
  | nil => intro _; rfl
  | cons a t ih =>
    intro h
    cases t with
    | nil => rfl
    | cons b t' =>
      rw [hasBoldPair]
      split
      · rename_i hcond
        rw [hasMarker, if_pos hcond] at h
        exact absurd h (by simp)
      · exact ih (hasMarker_cons a _ h)

theorem boldReplace_head (l : List Char) (h : headIs l '*' = false) :
    headIs (boldReplace l) '*' = false := by
  cases l with
  | nil =>
    rw [boldReplace]
    rfl
  | cons a t =>
    have ha : ¬ a = '*' := by
      intro hh
      rw [headIs, hh] at h
      exact absurd h (by simp)
    cases t with
    | nil =>
      rw [boldReplace]
      exact h
    | cons b t' =>
      rw [boldReplace, if_neg (fun hc => ha hc.1)]
      rw [headIs]
      simpa [headIs] using h

theorem lineTerm_ne_star (a : Char) (h : isLineTerm a = true) : ¬ a = '*' := by
  intro ha
  rw [ha] at h
  exact absurd h (by decide)

/-- An opening `**` with no matchable close keeps having none after the
substitution rewrites the rest of the line: the blocking line terminator
is left in place before any surviving `**`. -/
theorem findClose_boldReplace : ∀ t, findClose t = none →
    findClose (boldReplace t) = none := by
  intro t
  induction t using boldReplace.induct with
  | case1 =>
    intro _
    rw [boldReplace]
    rfl
  | case2 c =>
    intro _
    rw [boldReplace]
    rfl
  | case3 a b t hcond inner rest hfc ih =>
    intro h
    rw [findClose, if_pos hcond] at h
    exact absurd h (by simp)
  | case4 a b t hcond hfc ih =>
    intro h
    rw [findClose, if_pos hcond] at h
    exact absurd h (by simp)
  | case5 a b t hcond ih =>
    intro h
    rw [boldReplace, if_neg hcond]
    rw [findClose, if_neg hcond] at h
    by_cases hterm : isLineTerm a = true
    · have hstar : ¬ a = '*' := lineTerm_ne_star a hterm
      cases hbr : boldReplace (b :: t) with
      | nil => rfl
      | cons d o =>
        rw [findClose, if_neg (fun hc => hstar hc.1), if_pos hterm]
    · rw [if_neg hterm] at h
      have hfc2 : findClose (b :: t) = none := by
        cases hfc : findClose (b :: t) with
        | none => rfl
        | some p =>
          obtain ⟨i, r⟩ := p
          rw [hfc] at h
          exact absurd h (by simp)
      have ihh := ih hfc2
      cases hbr : boldReplace (b :: t) with
      | nil => rfl
      | cons d o =>
        have hd : ¬ (a = '*' ∧ d = '*') := by
          intro hc
          have hbne : headIs (b :: t) '*' = false := by
            rw [headIs]
            by_cases hbstar : b = '*'
            · exact absurd ⟨hc.1, hbstar⟩ hcond
            · simp [hbstar]
          have := boldReplace_head (b :: t) hbne
          rw [hbr, headIs] at this
          simp [hc.2] at this
        rw [findClose, if_neg hd, if_neg hterm]
        rw [hbr] at ihh
        rw [ihh]

/-- After the bold substitution no matchable `**…**` pair remains. -/
theorem boldReplace_clean : ∀ l, hasBoldPair (boldReplace l) = false := by
  intro l
  induction l using boldReplace.induct with
  | case1 =>
    rw [boldReplace]
    rfl
  | case2 c =>
    rw [boldReplace]
    rfl
  | case3 a b t hcond inner rest hfc ih =>
    rw [boldReplace, if_pos hcond, hfc]
    obtain ⟨_, hmInner, hesInner⟩ := findClose_spec t inner rest hfc
    refine boldPair_append _ _ (by decide) ?_ ?_
    · refine boldPair_append _ _ hmInner ?_ ?_
      · refine boldPair_append _ _ (by decide) ih ?_
        rw [show endsStar strongClose = false from by decide]
        rfl
      · rw [hesInner]
        rfl
    · rw [show endsStar strongOpen = false from by decide]
      rfl
  | case4 a b t hcond hfc ih =>
    rw [boldReplace, if_pos hcond, hfc]
    obtain ⟨ha, hb⟩ := hcond
    subst ha
    subst hb
    rw [hasBoldPair, if_pos ⟨rfl, rfl⟩, findClose_boldReplace t hfc]
    exact ih
  | case5 a b t hcond ih =>
    rw [boldReplace, if_neg hcond]
    cases hbr : boldReplace (b :: t) with
    | nil => rfl
    | cons d o =>
      rw [hasBoldPair]
      split
      · rename_i hpair
        exfalso
        have hbne : headIs (b :: t) '*' = false := by
          rw [headIs]
          by_cases hbstar : b = '*'
          · exact absurd ⟨hpair.1, hbstar⟩ hcond
          · simp [hbstar]
        have := boldReplace_head (b :: t) hbne
        rw [hbr, headIs] at this
        simp [hpair.2] at this
      · rw [← hbr] at *
        exact ih

/-- Remainder check of the regex `^\d+\.`: skip further digits, then
require a literal dot. -/
def digitsThenDot : List Char → Bool
  | [] => false
  | c :: t => if c.isDigit then digitsThenDot t else c == '.'

/-- The regex test `^\d+\.` used in the list-item branch of
`formatDescription`. -/
def startsNumDot : List Char → Bool
  | [] => false
  | c :: t => c.isDigit && digitsThenDot t

/-- The replacement `p.replace(/^[-*]\s*/, '')`: strip one leading dash
or asterisk and the following whitespace. -/
def stripDashStar (p : List Char) : List Char :=
  match p with
  | [] => p
  | c :: t => if c = '-' ∨ c = '*' then t.dropWhile isWs else p

/-- The replacement `p.replace(/^\d+\.\s*/, '')`: strip leading digits,
a dot, and the following whitespace. -/
def stripNumDot (p : List Char) : List Char :=
  if startsNumDot p then ((p.dropWhile (fun c => c.isDigit)).tail).dropWhile isWs
  else p

/-- The chained list-marker replacements of `formatDescription`. -/
def stripListMark (p : List Char) : List Char := stripNumDot (stripDashStar p)

/-- The replacement `p.replace(/^#+\s*/, '')`: strip the leading run of
`#` characters and the following whitespace (only when the line itself
begins with `#`). -/
def stripHeadingMark (p : List Char) : List Char :=
  match p with
  | '#' :: _ => (p.dropWhile (fun c => c == '#')).dropWhile isWs
  | _ => p

/-- A rendered line of `formatDescription`, by branch; the constant HTML
wrappers are elided, the processed line content kept. -/
inductive Rendered where
  | heading (content : List Char)
  | paragraph (content : List Char)
  | listItem (content : List Char)
  | plain (content : List Char)
deriving DecidableEq, Repr

/-- Content of a rendered line. -/
def Rendered.content : Rendered → List Char
  | .heading c => c
  | .paragraph c => c
  | .listItem c => c
  | .plain c => c

/-- Per-line classification and conversion of `formatDescription`:
heading when the trimmed line starts with `#`, else bold paragraph when
the line contains `**`, else list item when the trimmed line starts with
`-`, `*` or digits-and-dot, else plain paragraph. -/
def formatLine (p : List Char) : Rendered :=
  if headIs (jsTrim p) '#' then Rendered.heading (stripHeadingMark p)
  else if hasMarker p then Rendered.paragraph (boldReplace p)
  else if headIs (jsTrim p) '-' || headIs (jsTrim p) '*' || startsNumDot (jsTrim p) then
    Rendered.listItem (stripListMark p)
  else Rendered.plain p

/-- The client's `formatDescription`: split on newlines, keep lines with
non-empty trim, convert each line. -/
def formatDescription (text : List Char) : List Rendered :=
  ((splitOn '\n' text).filter (fun p => !(jsTrim p).isEmpty)).map formatLine

theorem dropWhile_sfx (f : Char → Bool) : ∀ l : List Char, l.dropWhile f <:+ l := by
  intro l
  induction l with
  | nil => exact List.suffix_refl _
  | cons a t ih =>
    by_cases hfa : f a = true
    · rw [List.dropWhile_cons_of_pos hfa]
      exact ih.trans (List.suffix_cons a t)
    · rw [List.dropWhile_cons_of_neg (by simpa using hfa)]

theorem tail_sfx : ∀ l : List Char, l.tail <:+ l := by
  intro l
  cases l with
  | nil => exact List.suffix_refl _
  | cons a t => exact List.suffix_cons a t

theorem stripListMark_sfx (p : List Char) : stripListMark p <:+ p := by
  have h1 : stripDashStar p <:+ p := by
    cases p with
    | nil => exact List.suffix_refl _
    | cons c t =>
      rw [stripDashStar]
      split
      · exact (dropWhile_sfx isWs t).trans (List.suffix_cons c t)
      · exact List.suffix_refl _
  have h2 : stripNumDot (stripDashStar p) <:+ stripDashStar p := by
    rw [stripNumDot]
    split
    · exact (dropWhile_sfx isWs _).trans
        ((tail_sfx _).trans (dropWhile_sfx (fun c => c.isDigit) _))
    · exact List.suffix_refl _
  exact h2.trans h1

theorem marker_of_append (u s : List Char) (h : hasMarker (u ++ s) = false) :
    hasMarker s = false := by
  induction u with
  | nil => simpa using h
  | cons a u ih => exact ih (hasMarker_cons a _ (by simpa using h))

theorem marker_of_sfx (s l : List Char) (hs : s <:+ l)
    (h : hasMarker l = false) : hasMarker s = false := by
  obtain ⟨u, hu⟩ := hs
  rw [← hu] at h
  exact marker_of_append u s h

theorem dropWhile_last_keep (f : Char → Bool) (c : Char) (hc : f c = false) :
    ∀ u : List Char, ∃ w, (u ++ [c]).dropWhile f = w ++ [c] := by
  intro u
  induction u with
  | nil =>
    refine ⟨[], ?_⟩
    rw [List.nil_append, List.dropWhile_cons_of_neg (by simpa using hc)]
  | cons a u ih =>
    by_cases hfa : f a = true
    · rw [List.cons_append, List.dropWhile_cons_of_pos hfa]
      exact ih
    · exact ⟨a :: u, by rw [List.cons_append, List.dropWhile_cons_of_neg (by simpa using hfa)]⟩

theorem jsTrim_head (p : List Char) (c : Char) (hc : isWs c = false)
    (h : headIs p c = true) : headIs (jsTrim p) c = true := by
  cases p with
  | nil => exact absurd h (by rw [headIs]; simp)
  | cons d t =>
    have hdc : d = c := by
      rw [headIs] at h
      exact eq_of_beq h
    subst hdc
    rw [jsTrim, List.dropWhile_cons_of_neg (by simpa using hc), List.reverse_cons]
    obtain ⟨w, hw⟩ := dropWhile_last_keep isWs d hc t.reverse
    rw [hw, List.reverse_append]
    simp [headIs]

theorem formatLine_clean (p : List Char) :
    (∀ c, formatLine p = Rendered.paragraph c → hasBoldPair c = false) ∧
    (∀ c, formatLine p = Rendered.listItem c → hasBoldPair c = false) ∧
    (∀ c, formatLine p = Rendered.plain c → hasBoldPair c = false) := by
  refine ⟨?_, ?_, ?_⟩
  · intro c hc
    rw [formatLine] at hc
    split_ifs at hc with h1 h2
    cases hc
    exact boldReplace_clean p
  · intro c hc
    rw [formatLine] at hc
    split_ifs at hc with h1 h2 h3
    cases hc
    have hm : hasMarker p = false := by simpa using h2
    exact bp_of_marker _ (marker_of_sfx _ p (stripListMark_sfx p) hm)
  · intro c hc
    rw [formatLine] at hc
    split_ifs at hc with h1 h2 h3
    cases hc
    have hm : hasMarker p = false := by simpa using h2
    exact bp_of_marker _ hm

/-- C9 counterexample: for the description `# **A**` the single rendered
line is a heading whose content retains the raw `**A**` pair, refuting
that no rendered line retains a raw `**` marker pair or leading `#`. -/
theorem claim9_counterexample :
    ¬ (∀ text r, r ∈ formatDescription text →
        hasBoldPair (Rendered.content r) = false ∧
        headIs (Rendered.content r) '#' = false) := by
  intro h
  have := h "# **A**".data (Rendered.heading "**A**".data) (by decide)
  exact absurd this.1 (by decide)

/-- C9 amended: every non-heading rendered line (bold paragraph, list
item, plain paragraph) contains no complete matchable `**…**` pair — a
pair whose inner text is free of line terminators, the only pairs the
regex `/\*\*(.*?)\*\*/g` can replace; a pair whose inner text crosses a
line terminator (possible, since lines are split only on `\n`) is left
verbatim by program and model alike.  Every line whose first character
is `#` is rendered as a heading consisting of the line with its leading
`#` run and the following whitespace stripped; heading lines may retain
raw `**` pairs, since the bold substitution is applied only in
non-heading lines. -/
theorem claim9_formatting (text p : List Char) :
    (∀ r ∈ formatDescription text,
      (∀ c, r = Rendered.paragraph c → hasBoldPair c = false) ∧
      (∀ c, r = Rendered.listItem c → hasBoldPair c = false) ∧
      (∀ c, r = Rendered.plain c → hasBoldPair c = false))
    ∧ (headIs p '#' = true →
        formatLine p =
          Rendered.heading ((p.dropWhile (fun c => c == '#')).dropWhile isWs)) := by
  constructor
  · intro r hr
    rw [formatDescription] at hr
    obtain ⟨q, _, rfl⟩ := List.mem_map.mp hr
    exact formatLine_clean q
  · intro h
    have htr : headIs (jsTrim p) '#' = true := jsTrim_head p '#' (by decide) h
    rw [formatLine, if_pos htr]
    cases p with
    | nil => exact absurd h (by rw [headIs]; simp)
    | cons d t =>
      have hd : d = '#' := by
        rw [headIs] at h
        exact eq_of_beq h
      subst hd
      rfl

/-- C9 witness: instantiation of the amended statement at a heading line
and at a plain line. -/
theorem claim9_witness :
    (headIs "# Title".data '#' = true ∧
      formatLine "# Title".data = Rendered.heading "Title".data)
    ∧ (Rendered.plain "hello".data ∈ formatDescription "hello".data ∧
        hasBoldPair "hello".data = false) := by
  constructor
  · refine ⟨by decide, ?_⟩
    have h := (claim9_formatting "hello".data "# Title".data).2 (by decide)
    rw [h]
    decide
  · refine ⟨by decide, ?_⟩
    exact ((claim9_formatting "hello".data "# Title".data).1
      (Rendered.plain "hello".data) (by decide)).2.2 "hello".data rfl
